import Mathlib

/-!
Verification of the astana_fund data model (src/astana_fund/models.py).

The file embeds the model classes Event, MediaPublication, Project,
InterestingBase (with its concrete variants Video, Music, Article) and
InterestingTag as Lean structures, the overridden save methods and the
derived display properties as pure functions, and django.utils.text.slugify
as a character-level string function.  Persistence-side behaviour that is
declared in the model file but enforced by the framework or the database
(unique constraints, choice validation, file-extension validation, URL
reversing) is modelled from the spec and marked as such in the doc comment
of the corresponding definition.
-/

namespace AstanaFund

/-- Calendar date (year, month, day), modelling Python datetime.date.
DateTimeField values are modelled by their calendar date; the time of day
plays no role in any property considered here. -/
structure Date where
  year : Nat
  month : Nat
  day : Nat
deriving DecidableEq

/-! ### django.utils.text.slugify (allow_unicode=False) -/

/-- ASCII whitespace matched by the Python regex class for whitespace once the
text has been reduced to ASCII: space, tab, newline, carriage return,
vertical tab, form feed. -/
def isPySpace (c : Char) : Bool :=
  c = ' ' || c = '\t' || c = '\n' || c = '\r' || c = '\x0b' || c = '\x0c'

/-- First step of django.utils.text.slugify with allow_unicode=False:
NFKD-normalise, encode to ASCII ignoring errors, decode back.  Modelled at
the character level: code points below 128 are kept, all others are dropped.
This is exact for every character that is ASCII or has no ASCII
compatibility decomposition - in particular for all Cyrillic letters, which
NFKD leaves outside ASCII, so the ASCII encoder drops them entirely.
Accented Latin letters, which NFKD would split into a kept base letter plus
a dropped combining mark, are outside the scope of the inputs used below. -/
def asciiEncodeIgnore (cs : List Char) : List Char :=
  cs.filter (fun c => c.toNat < 128)

/-- Characters kept by the second step of slugify, which deletes every
character that is not an ASCII word character, whitespace or hyphen. -/
def isWordSpaceDash (c : Char) : Bool :=
  c.isAlphanum || c = '_' || isPySpace c || c = '-'

/-- Characters folded into hyphens by the third step of slugify: hyphens and
whitespace. -/
def isDashOrSpace (c : Char) : Bool :=
  c = '-' || isPySpace c

/-- Third step of slugify: every maximal run of hyphens and whitespace is
replaced by a single hyphen.  The Boolean argument records whether the
previous character belonged to such a run. -/
def collapseDashRuns : Bool → List Char → List Char
  | _, [] => []
  | inRun, c :: cs =>
    if isDashOrSpace c then
      if inRun then collapseDashRuns true cs
      else '-' :: collapseDashRuns true cs
    else c :: collapseDashRuns false cs

/-- Characters removed from both ends by the final strip step of slugify:
hyphen and underscore. -/
def isStripChar (c : Char) : Bool :=
  c = '-' || c = '_'

/-- Final step of slugify: drop leading and trailing hyphens and
underscores. -/
def stripDashUnderscore (cs : List Char) : List Char :=
  ((cs.dropWhile isStripChar).reverse.dropWhile isStripChar).reverse

/-- django.utils.text.slugify with allow_unicode=False, as invoked by every
overridden save method in models.py: reduce to ASCII, lowercase, delete
characters outside word/whitespace/hyphen, collapse hyphen and whitespace
runs to single hyphens, strip edge hyphens and underscores. -/
def slugify (s : String) : String :=
  String.mk (stripDashUnderscore (collapseDashRuns false
    (((asciiEncodeIgnore s.data).map Char.toLower).filter isWordSpaceDash)))

/-- Characters that may appear in a slug produced by slugify: lowercase ASCII
letters, digits, underscore, hyphen. -/
def isSlugOutputChar (c : Char) : Bool :=
  c.isLower || c.isDigit || c = '_' || c = '-'

/-! ### URL reversing -/

/-- A resolved URL reference: named route plus keyword parameters. -/
structure UrlRef where
  route : String
  params : List (String × String)
deriving DecidableEq

/-- Modelled from the spec: django.urls.reverse resolves a named route plus
keyword arguments to a detail-page address.  The URL configuration is not
part of this repository's sources, so the reference is modelled as the pair
of route name and parameter assignment consumed by the presentation
layer. -/
def reverseUrl (route : String) (params : List (String × String)) : UrlRef :=
  { route := route, params := params }

/-! ### Event -/

/-- Event model fields.  Framework-managed timestamp columns created_at and
updated_at are omitted; image references are stored as their path. -/
structure Event where
  title : String
  description : String
  short_description : String
  program : Option String
  start_date : Date
  end_date : Option Date
  location : String
  address : String
  image : Option String
  status : String
  is_active : Bool
deriving DecidableEq

/-- Event.STATUS_CHOICES from models.py. -/
def Event.STATUS_CHOICES : List (String × String) :=
  [("current", "Предстоящее"), ("past", "Прошедшее")]

/-! ### MediaPublication -/

/-- MediaPublication model fields.  Framework-managed timestamp columns are
omitted; the image reference is stored as its path. -/
structure MediaPublication where
  title : String
  slug : String
  publication_date : Date
  author : String
  source : String
  source_url : String
  short_description : String
  full_content : String
  publication_type : String
  main_image : Option String
  is_published : Bool
deriving DecidableEq

/-- MediaPublication.PUBLICATION_TYPE_CHOICES from models.py. -/
def MediaPublication.PUBLICATION_TYPE_CHOICES : List (String × String) :=
  [("article", "Статья"), ("interview", "Интервью"), ("report", "Репортаж"),
   ("photo", "Фоторепортаж"), ("video", "Видеоматериал")]

/-- MediaPublication.save: if the slug is falsy (the empty string), set it to
the slugified title; the delegated framework save leaves the fields
unchanged. -/
def MediaPublication.save (m : MediaPublication) : MediaPublication :=
  if m.slug = "" then { m with slug := slugify m.title } else m

/-- MediaPublication.get_absolute_url. -/
def MediaPublication.get_absolute_url (m : MediaPublication) : UrlRef :=
  reverseUrl "media_detail" [("slug", m.slug)]

/-- The fixed month dictionary of MediaPublication.formatted_date: Russian
genitive month names keyed 1 to 12; none models a KeyError for any other
key. -/
def MediaPublication.months : Nat → Option String
  | 1 => some "января"
  | 2 => some "февраля"
  | 3 => some "марта"
  | 4 => some "апреля"
  | 5 => some "мая"
  | 6 => some "июня"
  | 7 => some "июля"
  | 8 => some "августа"
  | 9 => some "сентября"
  | 10 => some "октября"
  | 11 => some "ноября"
  | 12 => some "декабря"
  | _ => none

/-- MediaPublication.formatted_date: day, genitive month name, year separated
by spaces; none models the KeyError raised for a month outside the
dictionary (unreachable for an actual date). -/
def MediaPublication.formatted_date (m : MediaPublication) : Option String :=
  match MediaPublication.months m.publication_date.month with
  | some name =>
      some (toString m.publication_date.day ++ " " ++ name ++ " "
        ++ toString m.publication_date.year)
  | none => none

/-! ### Project -/

/-- Project model fields.  Framework-managed timestamp columns are omitted;
the image reference is stored as its path. -/
structure Project where
  title : String
  slug : String
  short_description : String
  full_description : String
  status : String
  start_date : Option Date
  end_date : Option Date
  location : String
  main_image : Option String
  is_featured : Bool
deriving DecidableEq

/-- Project.STATUS_CHOICES from models.py. -/
def Project.STATUS_CHOICES : List (String × String) :=
  [("current", "Текущий проект"), ("completed", "Завершен"),
   ("permanent", "Постоянный")]

/-- Project.save: if the slug is falsy (the empty string), set it to the
slugified title; the delegated framework save leaves the fields
unchanged. -/
def Project.save (p : Project) : Project :=
  if p.slug = "" then { p with slug := slugify p.title } else p

/-- Project.get_absolute_url. -/
def Project.get_absolute_url (p : Project) : UrlRef :=
  reverseUrl "project_detail" [("slug", p.slug)]

/-- Project.duration, mirroring the if/elif chain of models.py.  In the
permanent branch the code reads start_date.year unconditionally, so a
missing start date raises AttributeError there, modelled as none.  The
second branch fires only when the status is completed and both dates are
present; the third whenever a start date is present; otherwise the empty
string is returned. -/
def Project.duration (p : Project) : Option String :=
  if p.status = "permanent" then
    match p.start_date with
    | some d => some ("С " ++ toString d.year ++ " года")
    | none => none
  else
    match p.start_date, p.end_date with
    | some ds, some de =>
        if p.status = "completed" then
          some (toString ds.year ++ "-" ++ toString de.year)
        else
          some ("С " ++ toString ds.year)
    | some ds, none => some ("С " ++ toString ds.year)
    | none, _ => some ""

/-- Python dict(pairs).get(key, deflt): the value of the last pair whose key
matches (dict construction lets later pairs override earlier ones; the
choice lists used here have distinct keys, so this coincides with plain
lookup), or the default. -/
def dictGet (pairs : List (String × String)) (key deflt : String) : String :=
  match pairs.reverse.lookup key with
  | some v => v
  | none => deflt

/-- Project.status_label: dict(STATUS_CHOICES).get(status, empty string). -/
def Project.status_label (p : Project) : String :=
  dictGet Project.STATUS_CHOICES p.status ""

/-! ### InterestingBase and its concrete variants -/

/-- InterestingBase abstract model fields.  Framework-managed timestamp
columns are omitted; the thumbnail reference is stored as its path. -/
structure InterestingBase where
  title : String
  slug : String
  description : String
  thumbnail : Option String
  is_published : Bool
  views : Nat
deriving DecidableEq

/-- InterestingBase.save: if the slug is falsy (the empty string), set it to
the slugified title; the delegated framework save leaves the fields
unchanged. -/
def InterestingBase.save (b : InterestingBase) : InterestingBase :=
  if b.slug = "" then { b with slug := slugify b.title } else b

/-- InterestingTag model: unique name, unique slug. -/
structure InterestingTag where
  name : String
  slug : String
deriving DecidableEq

/-- InterestingTag.save: if the slug is falsy (the empty string), set it to
the slugified name; the delegated framework save leaves the fields
unchanged. -/
def InterestingTag.save (t : InterestingTag) : InterestingTag :=
  if t.slug = "" then { t with slug := slugify t.name } else t

/-- Video model: InterestingBase fields plus the video file reference and
duration (modelled in seconds). -/
structure Video extends InterestingBase where
  video_file : Option String
  duration : Option Nat
deriving DecidableEq

/-- Video.type: fixed discriminator of the Video variant. -/
def Video.type (_ : Video) : String := "video"

/-- Video inherits InterestingBase.save. -/
def Video.save (v : Video) : Video :=
  { v with toInterestingBase := v.toInterestingBase.save }

/-- InterestingBase.get_absolute_url as dispatched on a Video: the shared
route with the instance slug and the variant's type tag. -/
def Video.get_absolute_url (v : Video) : UrlRef :=
  reverseUrl "interesting_detail" [("slug", v.slug), ("type", v.type)]

/-- Music model: InterestingBase fields plus the audio file reference,
duration (modelled in seconds) and artist. -/
structure Music extends InterestingBase where
  audio_file : Option String
  duration : Option Nat
  artist : String
deriving DecidableEq

/-- Music.type: fixed discriminator of the Music variant. -/
def Music.type (_ : Music) : String := "music"

/-- Music inherits InterestingBase.save. -/
def Music.save (m : Music) : Music :=
  { m with toInterestingBase := m.toInterestingBase.save }

/-- InterestingBase.get_absolute_url as dispatched on a Music: the shared
route with the instance slug and the variant's type tag. -/
def Music.get_absolute_url (m : Music) : UrlRef :=
  reverseUrl "interesting_detail" [("slug", m.slug), ("type", m.type)]

/-- Article model: InterestingBase fields plus content, author, reading time
and the tag relation. -/
structure Article extends InterestingBase where
  content : String
  author : String
  reading_time : Nat
  tags : List InterestingTag
deriving DecidableEq

/-- Article.type: fixed discriminator of the Article variant. -/
def Article.type (_ : Article) : String := "article"

/-- Article inherits InterestingBase.save. -/
def Article.save (a : Article) : Article :=
  { a with toInterestingBase := a.toInterestingBase.save }

/-- InterestingBase.get_absolute_url as dispatched on an Article: the shared
route with the instance slug and the variant's type tag. -/
def Article.get_absolute_url (a : Article) : UrlRef :=
  reverseUrl "interesting_detail" [("slug", a.slug), ("type", a.type)]

/-! ### Framework-enforced validation and constraints (modelled from the spec) -/

/-- Split a character list on dots: the list of dot-free groups, one more
group than there are dots. -/
def splitOnDot : List Char → List (List Char)
  | [] => [[]]
  | c :: rest =>
    if c = '.' then [] :: splitOnDot rest
    else
      match splitOnDot rest with
      | [] => [[c]]
      | g :: gs => (c :: g) :: gs

/-- Modelled from the spec: Django FileExtensionValidator semantics are not
part of this repository's sources.  The validated extension is the
lowercased text after the final dot of the file name, empty when there is
no dot. -/
def fileExtension (name : String) : String :=
  match splitOnDot name.data with
  | [] => ""
  | [_] => ""
  | parts => String.mk ((parts.getLastD []).map Char.toLower)

/-- Whether a file name's extension is in the allow-list. -/
def extensionAllowed (allowed : List String) (name : String) : Bool :=
  allowed.contains (fileExtension name)

/-- The allow-list of the Video.video_file validator in models.py. -/
def Video.allowed_extensions : List String := ["mp4", "mov", "avi"]

/-- The allow-list of the Music.audio_file validator in models.py. -/
def Music.allowed_extensions : List String := ["mp3", "wav"]

/-- Modelled from the spec: validation of an uploaded video file rejects a
disallowed extension before persistence.  An absent file is not
validated. -/
def Video.validate_video_file (v : Video) : Except String Unit :=
  match v.video_file with
  | none => Except.ok ()
  | some nm =>
      if extensionAllowed Video.allowed_extensions nm then Except.ok ()
      else Except.error "File extension not allowed"

/-- Modelled from the spec: validation of an uploaded audio file rejects a
disallowed extension before persistence.  An absent file is not
validated. -/
def Music.validate_audio_file (m : Music) : Except String Unit :=
  match m.audio_file with
  | none => Except.ok ()
  | some nm =>
      if extensionAllowed Music.allowed_extensions nm then Except.ok ()
      else Except.error "File extension not allowed"

/-- Modelled from the spec: Django choice validation rejects a value outside
the declared choices list before persistence. -/
def validateChoice (choices : List (String × String)) (v : String) :
    Except String Unit :=
  if choices.any (fun p => p.1 == v) then Except.ok ()
  else Except.error "invalid choice"

/-- Validation of Event.status against Event.STATUS_CHOICES. -/
def Event.validate_status (e : Event) : Except String Unit :=
  validateChoice Event.STATUS_CHOICES e.status

/-- Validation of Project.status against Project.STATUS_CHOICES. -/
def Project.validate_status (p : Project) : Except String Unit :=
  validateChoice Project.STATUS_CHOICES p.status

/-- Validation of MediaPublication.publication_type against
MediaPublication.PUBLICATION_TYPE_CHOICES. -/
def MediaPublication.validate_publication_type (m : MediaPublication) :
    Except String Unit :=
  validateChoice MediaPublication.PUBLICATION_TYPE_CHOICES m.publication_type

/-- Modelled from the spec: the storage layer enforces a unique column
(unique=True) - a write whose key duplicates an existing row's key is
rejected, and no automatic suffixing or retry is performed; on success the
row is appended unchanged. -/
def insertUnique (key : α → String) (table : List α) (x : α) :
    Except String (List α) :=
  if table.any (fun r => key r == key x) then
    Except.error "UNIQUE constraint failed"
  else Except.ok (table ++ [x])

/-- Modelled from the spec: InterestingTag carries a unique name and a unique
slug; a write duplicating either is rejected, with no suffixing or
retry. -/
def insertTag (table : List InterestingTag) (x : InterestingTag) :
    Except String (List InterestingTag) :=
  if table.any (fun r => r.name == x.name || r.slug == x.slug) then
    Except.error "UNIQUE constraint failed"
  else Except.ok (table ++ [x])

/-! ### Sample records used by witnesses -/

/-- A fresh MediaPublication with no slug. -/
def mpFresh : MediaPublication :=
  { title := "Hello World", slug := "", publication_date := ⟨2024, 11, 21⟩,
    author := "", source := "", source_url := "", short_description := "",
    full_content := "", publication_type := "article", main_image := none,
    is_published := true }

/-- A fresh Project with no slug. -/
def projFresh : Project :=
  { title := "Hello World", slug := "", short_description := "",
    full_description := "", status := "current", start_date := none,
    end_date := none, location := "", main_image := none,
    is_featured := false }

/-- A fresh InterestingBase record with no slug. -/
def baseFresh : InterestingBase :=
  { title := "Hello World", slug := "", description := "", thumbnail := none,
    is_published := true, views := 0 }

/-- A fresh Video record with no slug and no file. -/
def vidFresh : Video :=
  { baseFresh with video_file := none, duration := none }

/-- A fresh Music record with no slug and no file. -/
def musFresh : Music :=
  { baseFresh with audio_file := none, duration := none, artist := "" }

/-- A fresh Article record with no slug. -/
def artFresh : Article :=
  { baseFresh with content := "", author := "", reading_time := 5, tags := [] }

/-- A fresh Event record. -/
def evFresh : Event :=
  { title := "Hello World", description := "", short_description := "",
    program := none, start_date := ⟨2024, 11, 21⟩, end_date := none,
    location := "", address := "", image := none, status := "current",
    is_active := true }

/-! ### Helper lemmas about slugify -/

lemma toLower_isUpper_fin :
    ∀ n : Fin 128, ((Char.ofNat n.val).toLower).isUpper = false := by decide

lemma toLower_not_upper {c : Char} (h : c.toNat < 128) :
    (Char.toLower c).isUpper = false := by
  have hfin := toLower_isUpper_fin ⟨c.toNat, h⟩
  rwa [Char.ofNat_toNat] at hfin

lemma mem_collapseDashRuns {c : Char} :
    ∀ (b : Bool) (l : List Char), c ∈ collapseDashRuns b l →
      c = '-' ∨ (c ∈ l ∧ isDashOrSpace c = false) := by
  intro b l
  induction l generalizing b with
  | nil => intro h; simp [collapseDashRuns] at h
  | cons a t ih =>
    intro h
    simp only [collapseDashRuns] at h
    by_cases ha : isDashOrSpace a
    · rw [if_pos ha] at h
      by_cases hb : b
      · subst hb
        simp only [if_pos rfl] at h
        rcases ih true h with h1 | ⟨h2, h3⟩
        · exact Or.inl h1
        · exact Or.inr ⟨List.mem_cons_of_mem a h2, h3⟩
      · simp only [hb, if_false] at h
        rcases List.mem_cons.mp h with h1 | h1
        · exact Or.inl h1
        · rcases ih true h1 with h2 | ⟨h3, h4⟩
          · exact Or.inl h2
          · exact Or.inr ⟨List.mem_cons_of_mem a h3, h4⟩
    · rw [if_neg ha] at h
      rcases List.mem_cons.mp h with h1 | h1
      · subst h1
        exact Or.inr ⟨List.mem_cons_self c t, by simpa using ha⟩
      · rcases ih false h1 with h2 | ⟨h3, h4⟩
        · exact Or.inl h2
        · exact Or.inr ⟨List.mem_cons_of_mem a h3, h4⟩

lemma mem_stripDashUnderscore {c : Char} {l : List Char}
    (h : c ∈ stripDashUnderscore l) : c ∈ l := by
  unfold stripDashUnderscore at h
  rw [List.mem_reverse] at h
  have h2 := (List.dropWhile_sublist _).mem h
  rw [List.mem_reverse] at h2
  exact (List.dropWhile_sublist _).mem h2

lemma getLast?_dropWhile {p : α → Bool} {l : List α} (h : l.dropWhile p ≠ []) :
    (l.dropWhile p).getLast? = l.getLast? := by
  induction l with
  | nil => simp at h
  | cons a t ih =>
    by_cases hp : p a
    · rw [List.dropWhile_cons_of_pos hp] at h ⊢
      have ht : t ≠ [] := by
        intro he; rw [he] at h; simp [List.dropWhile] at h
      rw [ih h]
      cases t with
      | nil => exact absurd rfl ht
      | cons b t2 => rw [List.getLast?_cons_cons]
    · rw [List.dropWhile_cons_of_neg hp]

lemma head_stripDashUnderscore {l : List Char} {c : Char}
    (h : (stripDashUnderscore l).head? = some c) : isStripChar c = false := by
  unfold stripDashUnderscore at h
  rw [List.head?_reverse] at h
  have hne : (l.dropWhile isStripChar).reverse.dropWhile isStripChar ≠ [] := by
    intro he; rw [he] at h; simp at h
  rw [getLast?_dropWhile hne, List.getLast?_reverse] at h
  have hnot := List.head?_dropWhile_not isStripChar l
  rw [h] at hnot
  exact hnot

lemma getLast_stripDashUnderscore {l : List Char} {c : Char}
    (h : (stripDashUnderscore l).getLast? = some c) : isStripChar c = false := by
  unfold stripDashUnderscore at h
  rw [List.getLast?_reverse] at h
  have hnot := List.head?_dropWhile_not isStripChar (l.dropWhile isStripChar).reverse
  rw [h] at hnot
  exact hnot

lemma slugify_chars {s : String} {c : Char} (h : c ∈ (slugify s).data) :
    isSlugOutputChar c = true := by
  have h2 := mem_stripDashUnderscore h
  rcases mem_collapseDashRuns false _ h2 with hdash | ⟨hmem, hnd⟩
  · subst hdash; decide
  · rw [List.mem_filter] at hmem
    obtain ⟨hml, hw⟩ := hmem
    rw [List.mem_map] at hml
    obtain ⟨c0, hc0, rfl⟩ := hml
    have hlt : c0.toNat < 128 := by
      have hm := List.mem_filter.mp hc0
      simpa using hm.2
    have hup := toLower_not_upper hlt
    simp only [isWordSpaceDash, Char.isAlphanum, Char.isAlpha, Bool.or_eq_true,
      decide_eq_true_eq] at hw
    simp only [isDashOrSpace, Bool.or_eq_false_iff, decide_eq_false_iff_not]
      at hnd
    simp only [isSlugOutputChar, Bool.or_eq_true, decide_eq_true_eq]
    have hupP : ¬ (Char.toLower c0).isUpper = true := by simp [hup]
    have hndP : ¬ isPySpace (Char.toLower c0) = true := by simp [hnd.2]
    have hndD : ¬ Char.toLower c0 = '-' := hnd.1
    tauto

lemma validateChoice_ok_iff (choices : List (String × String)) (v : String) :
    validateChoice choices v = Except.ok () ↔ ∃ r ∈ choices, r.1 = v := by
  unfold validateChoice
  split
  · rename_i hc
    simp only [List.any_eq_true, beq_iff_eq] at hc
    simpa using hc
  · rename_i hc
    simp only [List.any_eq_true, beq_iff_eq] at hc
    constructor
    · intro h; exact absurd h (by simp)
    · intro h; exact absurd h hc

lemma validateChoice_error (choices : List (String × String)) (v : String)
    (h : ¬ ∃ r ∈ choices, r.1 = v) :
    validateChoice choices v = Except.error "invalid choice" := by
  unfold validateChoice
  rw [if_neg]
  simpa only [List.any_eq_true, beq_iff_eq] using h

/-! ### Claim theorems -/

/-- C1: for every entity with a slug field (MediaPublication, Project and each
InterestingBase variant), saving with an empty slug sets the slug to the
slugification of the title, and saving with a non-empty slug - even after
the title has changed - leaves the slug unchanged. -/
theorem save_assigns_slug_only_when_empty :
    (∀ m : MediaPublication, m.slug = "" → (m.save).slug = slugify m.title) ∧
    (∀ m : MediaPublication, m.slug ≠ "" → ∀ t,
      ({ m with title := t } : MediaPublication).save.slug = m.slug) ∧
    (∀ p : Project, p.slug = "" → (p.save).slug = slugify p.title) ∧
    (∀ p : Project, p.slug ≠ "" → ∀ t,
      ({ p with title := t } : Project).save.slug = p.slug) ∧
    (∀ b : InterestingBase, b.slug = "" → (b.save).slug = slugify b.title) ∧
    (∀ b : InterestingBase, b.slug ≠ "" → ∀ t,
      ({ b with title := t } : InterestingBase).save.slug = b.slug) ∧
    (∀ v : Video, v.slug = "" → (v.save).slug = slugify v.title) ∧
    (∀ v : Video, v.slug ≠ "" → ∀ t,
      ({ v with title := t } : Video).save.slug = v.slug) ∧
    (∀ m : Music, m.slug = "" → (m.save).slug = slugify m.title) ∧
    (∀ m : Music, m.slug ≠ "" → ∀ t,
      ({ m with title := t } : Music).save.slug = m.slug) ∧
    (∀ a : Article, a.slug = "" → (a.save).slug = slugify a.title) ∧
    (∀ a : Article, a.slug ≠ "" → ∀ t,
      ({ a with title := t } : Article).save.slug = a.slug) := by
  refine ⟨?_, ?_, ?_, ?_, ?_, ?_, ?_, ?_, ?_, ?_, ?_, ?_⟩ <;>
    intros x h <;>
    simp [MediaPublication.save, Project.save, InterestingBase.save,
      Video.save, Music.save, Article.save, h]

/-- Witness for C1 at concrete records. -/
theorem save_assigns_slug_only_when_empty_witness :
    (mpFresh.save).slug = slugify "Hello World" ∧
    ({ { mpFresh with slug := "kept" } with
        title := "Changed" } : MediaPublication).save.slug = "kept" ∧
    (projFresh.save).slug = slugify "Hello World" ∧
    (baseFresh.save).slug = slugify "Hello World" ∧
    (vidFresh.save).slug = slugify "Hello World" :=
  ⟨save_assigns_slug_only_when_empty.1 mpFresh rfl,
   save_assigns_slug_only_when_empty.2.1 { mpFresh with slug := "kept" }
     (by decide) "Changed",
   save_assigns_slug_only_when_empty.2.2.1 projFresh rfl,
   save_assigns_slug_only_when_empty.2.2.2.2.1 baseFresh rfl,
   save_assigns_slug_only_when_empty.2.2.2.2.2.2.1 vidFresh rfl⟩

/-- C3 (amended): slugify produces a URL-safe token - every character of the
result is a lowercase ASCII letter, digit, underscore or hyphen, and the
result neither starts nor ends with a hyphen or underscore; whitespace runs
become single hyphens.  However, non-ASCII characters that do not normalise
into ASCII are stripped rather than transliterated, so a title consisting
only of Cyrillic letters derives the empty slug, not a non-empty token. -/
theorem slugify_produces_url_safe_token :
    (∀ (s : String), ∀ c ∈ (slugify s).data, isSlugOutputChar c = true) ∧
    (∀ (s : String) (c : Char),
      ((slugify s).data.head? = some c → isStripChar c = false) ∧
      ((slugify s).data.getLast? = some c → isStripChar c = false)) ∧
    slugify "Hello, Мир World" = "hello-world" ∧
    slugify "Новости Фонда" = "" :=
  ⟨fun _ _ h => slugify_chars h,
   fun _ _ =>
     ⟨fun h => head_stripDashUnderscore h,
      fun h => getLast_stripDashUnderscore h⟩,
   by decide, by decide⟩

/-- Witness for C3 at a concrete input. -/
theorem slugify_produces_url_safe_token_witness :
    isSlugOutputChar 'h' = true ∧ isStripChar 'h' = false ∧
    isStripChar 'd' = false :=
  ⟨slugify_produces_url_safe_token.1 "Hello World" 'h' (by decide),
   (slugify_produces_url_safe_token.2.1 "Hello World" 'h').1 (by decide),
   (slugify_produces_url_safe_token.2.1 "Hello World" 'd').2 (by decide)⟩

/-- C3 counterexample: the claim expects a title consisting only of Cyrillic
letters to derive a non-empty URL-safe token, but slugify drops all
Cyrillic characters and derives the empty string. -/
theorem slugify_cyrillic_only_title_empty :
    slugify "Новости" = "" ∧ (slugify "Новости").data = [] := by decide

/-- C2 (amended): Project.duration returns the permanent label when the status
is permanent and a start date is present, but raises AttributeError
(modelled as none) when the status is permanent and the start date is
missing; returns the year range when completed with both dates present;
returns the start-year label whenever a start date is present in the
remaining cases - even when an end date is also present; and returns the
empty string when the status is not permanent and no start date is
present. -/
theorem duration_spec (p : Project) :
    (p.status = "permanent" → ∀ d, p.start_date = some d →
      p.duration = some ("С " ++ toString d.year ++ " года")) ∧
    (p.status = "permanent" → p.start_date = none → p.duration = none) ∧
    (p.status = "completed" → ∀ ds de, p.start_date = some ds →
      p.end_date = some de →
      p.duration = some (toString ds.year ++ "-" ++ toString de.year)) ∧
    (p.status ≠ "permanent" → (p.status = "completed" → p.end_date = none) →
      ∀ d, p.start_date = some d →
      p.duration = some ("С " ++ toString d.year)) ∧
    (p.status ≠ "permanent" → p.start_date = none → p.duration = some "") := by
  refine ⟨?_, ?_, ?_, ?_, ?_⟩
  · intro hs d hd
    simp [Project.duration, hs, hd]
  · intro hs hd
    simp [Project.duration, hs, hd]
  · intro hs ds de hds hde
    have hne : p.status ≠ "permanent" := by rw [hs]; decide
    simp [Project.duration, hs, hds, hde, hne]
  · intro hne hce d hd
    rcases he : p.end_date with _ | de
    · simp [Project.duration, hne, hd, he]
    · have hnc : p.status ≠ "completed" := by
        intro hc
        rw [hce hc] at he
        exact Option.noConfusion he
      simp [Project.duration, hne, hnc, hd, he]
  · intro hne hd
    simp [Project.duration, hne, hd]

/-- Witness for C2 at concrete records: the four labelled cases. -/
theorem duration_spec_witness :
    ({ projFresh with
        status := "permanent",
        start_date := some ⟨2010, 5, 3⟩ } : Project).duration
      = some "С 2010 года" ∧
    ({ projFresh with
        status := "completed",
        start_date := some ⟨2015, 1, 1⟩,
        end_date := some ⟨2020, 1, 1⟩ } : Project).duration
      = some "2015-2020" ∧
    ({ projFresh with
        status := "current",
        start_date := some ⟨2022, 1, 1⟩ } : Project).duration
      = some "С 2022" ∧
    projFresh.duration = some "" :=
  ⟨((duration_spec _).1 rfl ⟨2010, 5, 3⟩ rfl).trans (by decide),
   ((duration_spec _).2.2.1 rfl ⟨2015, 1, 1⟩ ⟨2020, 1, 1⟩ rfl rfl).trans
     (by decide),
   ((duration_spec _).2.2.2.1 (by decide) (fun h => by simp at h) ⟨2022, 1, 1⟩
     rfl).trans (by decide),
   (duration_spec _).2.2.2.2 (by decide) rfl⟩

/-- C2 counterexample: a permanent project with no start date - the code reads
start_date.year on None and raises AttributeError (modelled as none),
instead of returning the empty string and never raising as claimed. -/
theorem duration_permanent_no_start_raises :
    ({ projFresh with status := "permanent" } : Project).duration = none ∧
    ({ projFresh with status := "permanent" } : Project).duration
      ≠ some "" := by decide

/-- C5: formatted_date renders the stored publication date as day, Russian
genitive month name and year, via the fixed 12-entry lookup; for 2024-11-21
it returns the expected string; and it is a pure function of the date
field. -/
theorem formatted_date_spec :
    (∀ m : MediaPublication, 1 ≤ m.publication_date.month →
      m.publication_date.month ≤ 12 →
      ∃ nm, MediaPublication.months m.publication_date.month = some nm ∧
        m.formatted_date = some (toString m.publication_date.day ++ " " ++ nm
          ++ " " ++ toString m.publication_date.year)) ∧
    ({ mpFresh with publication_date := ⟨2024, 11, 21⟩ } :
      MediaPublication).formatted_date = some "21 ноября 2024" ∧
    (∀ m m' : MediaPublication, m.publication_date = m'.publication_date →
      m.formatted_date = m'.formatted_date) := by
  refine ⟨?_, by decide, ?_⟩
  · intro m h1 h2
    have hmm : ∃ nm, MediaPublication.months m.publication_date.month
        = some nm := by
      set k := m.publication_date.month with hk
      interval_cases k <;> exact ⟨_, rfl⟩
    obtain ⟨nm, hnm⟩ := hmm
    exact ⟨nm, hnm, by simp [MediaPublication.formatted_date, hnm]⟩
  · intro m m' h
    simp [MediaPublication.formatted_date, h]

/-- Witness for C5 at a concrete record. -/
theorem formatted_date_spec_witness :
    ∃ nm, MediaPublication.months
        ({ mpFresh with publication_date := ⟨2024, 11, 21⟩ } :
          MediaPublication).publication_date.month = some nm ∧
      ({ mpFresh with publication_date := ⟨2024, 11, 21⟩ } :
        MediaPublication).formatted_date
        = some (toString ({ mpFresh with publication_date := ⟨2024, 11, 21⟩ } :
            MediaPublication).publication_date.day ++ " " ++ nm ++ " "
          ++ toString ({ mpFresh with publication_date := ⟨2024, 11, 21⟩ } :
            MediaPublication).publication_date.year) :=
  formatted_date_spec.1 _ (by decide) (by decide)

/-- C9: status_label returns the display label from STATUS_CHOICES for each of
the three listed status values and the empty string for any other value. -/
theorem status_label_spec (p : Project) :
    (p.status = "current" → p.status_label = "Текущий проект") ∧
    (p.status = "completed" → p.status_label = "Завершен") ∧
    (p.status = "permanent" → p.status_label = "Постоянный") ∧
    (p.status ≠ "current" → p.status ≠ "completed" → p.status ≠ "permanent" →
      p.status_label = "") := by
  refine ⟨?_, ?_, ?_, ?_⟩
  · intro h; simp [Project.status_label, dictGet, Project.STATUS_CHOICES, h,
      List.lookup]
  · intro h; simp [Project.status_label, dictGet, Project.STATUS_CHOICES, h,
      List.lookup]
  · intro h; simp [Project.status_label, dictGet, Project.STATUS_CHOICES, h,
      List.lookup]
  · intro h1 h2 h3
    have b1 : (p.status == "current") = false := by simp [h1]
    have b2 : (p.status == "completed") = false := by simp [h2]
    have b3 : (p.status == "permanent") = false := by simp [h3]
    simp [Project.status_label, dictGet, Project.STATUS_CHOICES, List.lookup,
      b1, b2, b3]

/-- Witness for C9 at concrete records. -/
theorem status_label_spec_witness :
    ({ projFresh with status := "current" } : Project).status_label
      = "Текущий проект" ∧
    ({ projFresh with status := "completed" } : Project).status_label
      = "Завершен" ∧
    ({ projFresh with status := "permanent" } : Project).status_label
      = "Постоянный" ∧
    ({ projFresh with status := "bogus" } : Project).status_label = "" :=
  ⟨(status_label_spec _).1 rfl,
   (status_label_spec _).2.1 rfl,
   (status_label_spec _).2.2.1 rfl,
   (status_label_spec _).2.2.2 (by decide) (by decide) (by decide)⟩

/-- C4: within one table slugs are pairwise distinct - an insert preserves
pairwise-distinct slugs - and a write whose slug (or, for InterestingTag,
whose name or slug) duplicates an existing row is rejected with a
uniqueness-violation error; no suffixing or retry happens: a successful
write appends the record unchanged. -/
theorem unique_slug_enforced :
    (∀ (t : List MediaPublication) (x : MediaPublication)
        (t' : List MediaPublication),
      List.Pairwise (fun a b => a.slug ≠ b.slug) t →
      insertUnique (fun r => r.slug) t x = Except.ok t' →
      List.Pairwise (fun a b => a.slug ≠ b.slug) t' ∧ t' = t ++ [x]) ∧
    (∀ (t : List MediaPublication) (x : MediaPublication),
      (∃ r ∈ t, r.slug = x.slug) →
      insertUnique (fun r => r.slug) t x
        = Except.error "UNIQUE constraint failed") ∧
    (∀ (t : List InterestingTag) (x : InterestingTag),
      (∃ r ∈ t, r.name = x.name ∨ r.slug = x.slug) →
      insertTag t x = Except.error "UNIQUE constraint failed") := by
  refine ⟨?_, ?_, ?_⟩
  · intro t x t' hp hok
    unfold insertUnique at hok
    by_cases hany : t.any (fun r => r.slug == x.slug)
    · rw [if_pos hany] at hok
      exact absurd hok (by simp)
    · rw [if_neg hany] at hok
      have ht' : t' = t ++ [x] := by
        have := Except.ok.inj hok
        exact this.symm
      subst ht'
      refine ⟨List.pairwise_append.mpr ⟨hp, by simp, ?_⟩, rfl⟩
      intro a ha b hb
      have hb' : b = x := by simpa using hb
      subst hb'
      intro he
      apply hany
      rw [List.any_eq_true]
      exact ⟨a, ha, by simp [he]⟩
  · intro t x ⟨r, hr, he⟩
    unfold insertUnique
    rw [if_pos]
    rw [List.any_eq_true]
    exact ⟨r, hr, by simp [he]⟩
  · intro t x ⟨r, hr, he⟩
    unfold insertTag
    rw [if_pos]
    rw [List.any_eq_true]
    refine ⟨r, hr, ?_⟩
    rcases he with he | he <;> simp [he]

/-- Witness for C4 at concrete records: a duplicate slug is rejected, a fresh
slug is appended unchanged. -/
theorem unique_slug_enforced_witness :
    insertUnique (fun r => r.slug) [{ mpFresh with slug := "dup" }]
      { mpFresh with slug := "dup" } = Except.error "UNIQUE constraint failed" ∧
    List.Pairwise (fun a b : MediaPublication => a.slug ≠ b.slug)
      [{ mpFresh with slug := "a" }, { mpFresh with slug := "b" }] ∧
    insertTag [⟨"Tag", "tag"⟩] ⟨"Tag", "other"⟩
      = Except.error "UNIQUE constraint failed" :=
  ⟨unique_slug_enforced.2.1 [{ mpFresh with slug := "dup" }]
     { mpFresh with slug := "dup" } ⟨_, List.mem_singleton.mpr rfl, rfl⟩,
   (unique_slug_enforced.1 [{ mpFresh with slug := "a" }]
     { mpFresh with slug := "b" }
     [{ mpFresh with slug := "a" }, { mpFresh with slug := "b" }]
     (by simp) rfl).1,
   unique_slug_enforced.2.2 [⟨"Tag", "tag"⟩] ⟨"Tag", "other"⟩
     ⟨_, List.mem_singleton.mpr rfl, Or.inl rfl⟩⟩

/-- C6: each concrete InterestingBase variant's detail URL embeds its own
fixed type tag together with the instance slug; two instances of different
variants sharing the same slug do not collide - their URLs differ, and the
per-table unique constraint lets each be written to its own table. -/
theorem interesting_detail_url_spec :
    (∀ v : Video, v.type = "video" ∧ v.get_absolute_url
      = reverseUrl "interesting_detail" [("slug", v.slug), ("type", "video")]) ∧
    (∀ m : Music, m.type = "music" ∧ m.get_absolute_url
      = reverseUrl "interesting_detail" [("slug", m.slug), ("type", "music")]) ∧
    (∀ a : Article, a.type = "article" ∧ a.get_absolute_url
      = reverseUrl "interesting_detail"
          [("slug", a.slug), ("type", "article")]) ∧
    (∀ (v : Video) (m : Music), v.slug = m.slug →
      v.get_absolute_url ≠ m.get_absolute_url) ∧
    (∀ (v : Video) (a : Article), v.slug = a.slug →
      v.get_absolute_url ≠ a.get_absolute_url) ∧
    (∀ (m : Music) (a : Article), m.slug = a.slug →
      m.get_absolute_url ≠ a.get_absolute_url) ∧
    (∀ (vt : List Video) (mt : List Music) (v : Video) (m : Music),
      v.slug = m.slug →
      (∀ r ∈ vt, r.slug ≠ v.slug) → (∀ r ∈ mt, r.slug ≠ m.slug) →
      insertUnique (fun r => r.slug) vt v = Except.ok (vt ++ [v]) ∧
      insertUnique (fun r => r.slug) mt m = Except.ok (mt ++ [m])) := by
  refine ⟨fun v => ⟨rfl, rfl⟩, fun m => ⟨rfl, rfl⟩, fun a => ⟨rfl, rfl⟩,
    ?_, ?_, ?_, ?_⟩
  · intro v m _ h
    simp [Video.get_absolute_url, Music.get_absolute_url, reverseUrl,
      Video.type, Music.type] at h
  · intro v a _ h
    simp [Video.get_absolute_url, Article.get_absolute_url, reverseUrl,
      Video.type, Article.type] at h
  · intro m a _ h
    simp [Music.get_absolute_url, Article.get_absolute_url, reverseUrl,
      Music.type, Article.type] at h
  · intro vt mt v m _ hv hm
    constructor
    · unfold insertUnique
      rw [if_neg]
      intro hany
      rw [List.any_eq_true] at hany
      obtain ⟨r, hr, he⟩ := hany
      exact hv r hr (by simpa using he)
    · unfold insertUnique
      rw [if_neg]
      intro hany
      rw [List.any_eq_true] at hany
      obtain ⟨r, hr, he⟩ := hany
      exact hm r hr (by simpa using he)

/-- Witness for C6 at concrete records sharing one slug. -/
theorem interesting_detail_url_spec_witness :
    ({ vidFresh with slug := "same" } : Video).get_absolute_url
      ≠ ({ musFresh with slug := "same" } : Music).get_absolute_url ∧
    insertUnique (fun r => r.slug) ([] : List Video)
        { vidFresh with slug := "same" }
      = Except.ok [{ vidFresh with slug := "same" }] ∧
    insertUnique (fun r => r.slug) ([] : List Music)
        { musFresh with slug := "same" }
      = Except.ok [{ musFresh with slug := "same" }] :=
  ⟨interesting_detail_url_spec.2.2.2.1 { vidFresh with slug := "same" }
     { musFresh with slug := "same" } rfl,
   (interesting_detail_url_spec.2.2.2.2.2.2 [] [] { vidFresh with slug := "same" }
     { musFresh with slug := "same" } rfl (by simp) (by simp)).1,
   (interesting_detail_url_spec.2.2.2.2.2.2 [] [] { vidFresh with slug := "same" }
     { musFresh with slug := "same" } rfl (by simp) (by simp)).2⟩

/-- C7: video upload validation accepts exactly the extensions mp4, mov and
avi; audio upload validation accepts exactly mp3 and wav; any other
extension is rejected before persistence, e.g. an exe file. -/
theorem file_extension_validation_spec :
    (∀ (v : Video) (nm : String), v.video_file = some nm →
      (Video.validate_video_file v = Except.ok () ↔
        (fileExtension nm = "mp4" ∨ fileExtension nm = "mov" ∨
          fileExtension nm = "avi"))) ∧
    (∀ (v : Video) (nm : String), v.video_file = some nm →
      ¬(fileExtension nm = "mp4" ∨ fileExtension nm = "mov" ∨
          fileExtension nm = "avi") →
      Video.validate_video_file v = Except.error "File extension not allowed") ∧
    (∀ (m : Music) (nm : String), m.audio_file = some nm →
      (Music.validate_audio_file m = Except.ok () ↔
        (fileExtension nm = "mp3" ∨ fileExtension nm = "wav"))) ∧
    (∀ (m : Music) (nm : String), m.audio_file = some nm →
      ¬(fileExtension nm = "mp3" ∨ fileExtension nm = "wav") →
      Music.validate_audio_file m = Except.error "File extension not allowed") ∧
    Video.validate_video_file ({ vidFresh with video_file := some "clip.mp4" })
      = Except.ok () ∧
    Video.validate_video_file
        ({ vidFresh with video_file := some "malware.exe" })
      = Except.error "File extension not allowed" := by
  refine ⟨?_, ?_, ?_, ?_, rfl, rfl⟩
  · intro v nm hv
    simp only [Video.validate_video_file, hv]
    constructor
    · intro h
      by_cases hal : extensionAllowed Video.allowed_extensions nm
      · simpa [extensionAllowed, Video.allowed_extensions] using hal
      · rw [if_neg hal] at h
        exact absurd h (by simp)
    · intro h
      rw [if_pos]
      simpa [extensionAllowed, Video.allowed_extensions] using h
  · intro v nm hv h
    simp only [Video.validate_video_file, hv]
    rw [if_neg]
    intro hal
    exact h (by simpa [extensionAllowed, Video.allowed_extensions] using hal)
  · intro m nm hm
    simp only [Music.validate_audio_file, hm]
    constructor
    · intro h
      by_cases hal : extensionAllowed Music.allowed_extensions nm
      · simpa [extensionAllowed, Music.allowed_extensions] using hal
      · rw [if_neg hal] at h
        exact absurd h (by simp)
    · intro h
      rw [if_pos]
      simpa [extensionAllowed, Music.allowed_extensions] using h
  · intro m nm hm h
    simp only [Music.validate_audio_file, hm]
    rw [if_neg]
    intro hal
    exact h (by simpa [extensionAllowed, Music.allowed_extensions] using hal)

/-- Witness for C7 at concrete uploads. -/
theorem file_extension_validation_spec_witness :
    Video.validate_video_file ({ vidFresh with video_file := some "a.mov" })
      = Except.ok () ∧
    Music.validate_audio_file ({ musFresh with audio_file := some "b.exe" })
      = Except.error "File extension not allowed" :=
  ⟨(file_extension_validation_spec.1 { vidFresh with video_file := some "a.mov" }
     "a.mov" rfl).mpr (Or.inr (Or.inl (by decide))),
   file_extension_validation_spec.2.2.2.1
     { musFresh with audio_file := some "b.exe" } "b.exe" rfl (by decide)⟩

/-- C8: status and type fields are closed enumerations - validation accepts a
value exactly when it is in the declared choices list and rejects every
other value before persistence. -/
theorem choice_validation_spec :
    (∀ e : Event, Event.validate_status e = Except.ok () ↔
      (e.status = "current" ∨ e.status = "past")) ∧
    (∀ e : Event, e.status ≠ "current" → e.status ≠ "past" →
      Event.validate_status e = Except.error "invalid choice") ∧
    (∀ p : Project, Project.validate_status p = Except.ok () ↔
      (p.status = "current" ∨ p.status = "completed" ∨
        p.status = "permanent")) ∧
    (∀ p : Project, p.status ≠ "current" → p.status ≠ "completed" →
      p.status ≠ "permanent" →
      Project.validate_status p = Except.error "invalid choice") ∧
    (∀ m : MediaPublication,
      MediaPublication.validate_publication_type m = Except.ok () ↔
      (m.publication_type = "article" ∨ m.publication_type = "interview" ∨
        m.publication_type = "report" ∨ m.publication_type = "photo" ∨
        m.publication_type = "video")) ∧
    (∀ m : MediaPublication, m.publication_type ≠ "article" →
      m.publication_type ≠ "interview" → m.publication_type ≠ "report" →
      m.publication_type ≠ "photo" → m.publication_type ≠ "video" →
      MediaPublication.validate_publication_type m
        = Except.error "invalid choice") := by
  refine ⟨?_, ?_, ?_, ?_, ?_, ?_⟩
  · intro e
    unfold Event.validate_status
    rw [validateChoice_ok_iff]
    constructor
    · rintro ⟨r, hr, he⟩
      simp only [Event.STATUS_CHOICES, List.mem_cons, List.not_mem_nil,
        or_false] at hr
      rcases hr with hr | hr <;> subst hr
      · exact Or.inl he.symm
      · exact Or.inr he.symm
    · rintro (h | h)
      · exact ⟨("current", "Предстоящее"), by simp [Event.STATUS_CHOICES],
          h.symm⟩
      · exact ⟨("past", "Прошедшее"), by simp [Event.STATUS_CHOICES], h.symm⟩
  · intro e h1 h2
    unfold Event.validate_status
    apply validateChoice_error
    rintro ⟨r, hr, he⟩
    simp only [Event.STATUS_CHOICES, List.mem_cons, List.not_mem_nil,
      or_false] at hr
    rcases hr with hr | hr <;> subst hr
    · exact h1 he.symm
    · exact h2 he.symm
  · intro p
    unfold Project.validate_status
    rw [validateChoice_ok_iff]
    constructor
    · rintro ⟨r, hr, he⟩
      simp only [Project.STATUS_CHOICES, List.mem_cons, List.not_mem_nil,
        or_false] at hr
      rcases hr with hr | hr | hr <;> subst hr
      · exact Or.inl he.symm
      · exact Or.inr (Or.inl he.symm)
      · exact Or.inr (Or.inr he.symm)
    · rintro (h | h | h)
      · exact ⟨("current", "Текущий проект"),
          by simp [Project.STATUS_CHOICES], h.symm⟩
      · exact ⟨("completed", "Завершен"), by simp [Project.STATUS_CHOICES],
          h.symm⟩
      · exact ⟨("permanent", "Постоянный"), by simp [Project.STATUS_CHOICES],
          h.symm⟩
  · intro p h1 h2 h3
    unfold Project.validate_status
    apply validateChoice_error
    rintro ⟨r, hr, he⟩
    simp only [Project.STATUS_CHOICES, List.mem_cons, List.not_mem_nil,
      or_false] at hr
    rcases hr with hr | hr | hr <;> subst hr
    · exact h1 he.symm
    · exact h2 he.symm
    · exact h3 he.symm
  · intro m
    unfold MediaPublication.validate_publication_type
    rw [validateChoice_ok_iff]
    constructor
    · rintro ⟨r, hr, he⟩
      simp only [MediaPublication.PUBLICATION_TYPE_CHOICES, List.mem_cons,
        List.not_mem_nil, or_false] at hr
      rcases hr with hr | hr | hr | hr | hr <;> subst hr
      · exact Or.inl he.symm
      · exact Or.inr (Or.inl he.symm)
      · exact Or.inr (Or.inr (Or.inl he.symm))
      · exact Or.inr (Or.inr (Or.inr (Or.inl he.symm)))
      · exact Or.inr (Or.inr (Or.inr (Or.inr he.symm)))
    · rintro (h | h | h | h | h)
      · exact ⟨("article", "Статья"),
          by simp [MediaPublication.PUBLICATION_TYPE_CHOICES], h.symm⟩
      · exact ⟨("interview", "Интервью"),
          by simp [MediaPublication.PUBLICATION_TYPE_CHOICES], h.symm⟩
      · exact ⟨("report", "Репортаж"),
          by simp [MediaPublication.PUBLICATION_TYPE_CHOICES], h.symm⟩
      · exact ⟨("photo", "Фоторепортаж"),
          by simp [MediaPublication.PUBLICATION_TYPE_CHOICES], h.symm⟩
      · exact ⟨("video", "Видеоматериал"),
          by simp [MediaPublication.PUBLICATION_TYPE_CHOICES], h.symm⟩
  · intro m h1 h2 h3 h4 h5
    unfold MediaPublication.validate_publication_type
    apply validateChoice_error
    rintro ⟨r, hr, he⟩
    simp only [MediaPublication.PUBLICATION_TYPE_CHOICES, List.mem_cons,
      List.not_mem_nil, or_false] at hr
    rcases hr with hr | hr | hr | hr | hr <;> subst hr
    · exact h1 he.symm
    · exact h2 he.symm
    · exact h3 he.symm
    · exact h4 he.symm
    · exact h5 he.symm

/-- Witness for C8 at concrete records: a listed value passes, an unlisted
value is rejected. -/
theorem choice_validation_spec_witness :
    Event.validate_status evFresh = Except.ok () ∧
    Event.validate_status ({ evFresh with status := "bogus" })
      = Except.error "invalid choice" ∧
    MediaPublication.validate_publication_type
        ({ mpFresh with publication_type := "meme" })
      = Except.error "invalid choice" :=
  ⟨(choice_validation_spec.1 evFresh).mpr (Or.inl rfl),
   choice_validation_spec.2.1 { evFresh with status := "bogus" }
     (by decide) (by decide),
   choice_validation_spec.2.2.2.2.2 { mpFresh with publication_type := "meme" }
     (by decide) (by decide) (by decide) (by decide) (by decide)⟩

/-- C10: when the slugified title is empty, save leaves the slug empty, the
derivation is re-attempted on a later save (a changed title is slugified
then), and two such entities in one table collide under the unique
constraint because both carry the empty slug. -/
theorem empty_derived_slug_behaviour :
    (∀ b : InterestingBase, b.slug = "" → slugify b.title = "" →
      (b.save).slug = "") ∧
    (∀ b : InterestingBase, b.slug = "" → slugify b.title = "" → ∀ t,
      ({ b.save with title := t } : InterestingBase).save.slug = slugify t) ∧
    (∀ b c : InterestingBase, b.slug = "" → c.slug = "" →
      slugify b.title = "" → slugify c.title = "" →
      insertUnique (fun r => r.slug) [b.save] (c.save)
        = Except.error "UNIQUE constraint failed") ∧
    (∀ m : MediaPublication, m.slug = "" → slugify m.title = "" →
      (m.save).slug = "") := by
  have hb : ∀ b : InterestingBase, b.slug = "" → slugify b.title = "" →
      (b.save).slug = "" := by
    intro b h1 h2
    simp [InterestingBase.save, h1, h2]
  have haux : ∀ s : InterestingBase, s.slug = "" → ∀ t,
      ({ s with title := t } : InterestingBase).save.slug = slugify t := by
    intro s hs t
    simp [InterestingBase.save, hs]
  refine ⟨hb, ?_, ?_, ?_⟩
  · intro b h1 h2 t
    exact haux (b.save) (hb b h1 h2) t
  · intro b c h1 h2 h3 h4
    unfold insertUnique
    rw [if_pos]
    rw [List.any_eq_true]
    refine ⟨b.save, List.mem_singleton.mpr rfl, ?_⟩
    show (b.save.slug == c.save.slug) = true
    rw [hb b h1 h3, hb c h2 h4]
    rfl
  · intro m h1 h2
    simp [MediaPublication.save, h1, h2]

/-- Witness for C10 at concrete records with a Cyrillic-only title. -/
theorem empty_derived_slug_behaviour_witness :
    (({ baseFresh with title := "Новости" } : InterestingBase).save).slug
      = "" ∧
    ({ ({ baseFresh with title := "Новости" } : InterestingBase).save with
        title := "Hello World" } : InterestingBase).save.slug
      = slugify "Hello World" ∧
    insertUnique (fun r => r.slug)
        [({ baseFresh with title := "Новости" } : InterestingBase).save]
        (({ baseFresh with title := "Архив" } : InterestingBase).save)
      = Except.error "UNIQUE constraint failed" :=
  ⟨empty_derived_slug_behaviour.1 { baseFresh with title := "Новости" }
     rfl (by decide),
   empty_derived_slug_behaviour.2.1 { baseFresh with title := "Новости" }
     rfl (by decide) "Hello World",
   empty_derived_slug_behaviour.2.2.1 { baseFresh with title := "Новости" }
     { baseFresh with title := "Архив" } rfl rfl (by decide) (by decide)⟩

end AstanaFund
